import Mathlib

/-!
Shallow embedding of `certimporter/CertImporter/CertImporter.cpp`, a Windows
command-line tool that finds, imports or deletes a certificate in a system
trust store.  The Windows CryptoAPI trust store, the file system and the DER
decoder are external collaborators; they are modelled by an explicit
environment `Env` together with the store contents (`List Cert`).  Every call
the program makes into the store API is recorded in an event trace, so that
claims about "never opens a store" or "closes the handle" become statements
about the trace.
-/

set_option autoImplicit false

namespace CertImporter

/-- A certificate as the native store sees it: a native identity (the store
compares entries by issuer+serial / thumbprint, abstracted as a `Nat` key) and
a subject common name used by the subject-string search. -/
structure Cert where
  identity : Nat
  subject : String
deriving DecidableEq

/-- One call into the native store API.  `openCall` records the read-only flag
(`CERT_STORE_READONLY_FLAG`) the program passes for pure lookups. -/
inductive StoreEvent where
  | openCall (readOnly : Bool)
  | findCall
  | addCall
  | deleteCall
  | closeCall
deriving DecidableEq

/-- The external collaborators of the program, at the boundary the spec
describes: the file system, the DER decoder, the subject-string matcher of
`CertFindCertificateInStore`, and the success/failure behaviour of the native
add, delete and open calls. -/
structure Env where
  openOk : String → Bool
  readFile : String → Option (List Nat)
  parseCert : List Nat → Option Cert
  subjectMatch : Cert → String → Bool
  addAccepts : List Cert → Cert → Bool
  deleteOk : List Cert → Cert → Bool

/-- Result of one process invocation: the exit code, the final contents of the
named store, and the trace of store-API calls made. -/
structure Result where
  exitCode : Nat
  store : List Cert
  events : List StoreEvent
deriving DecidableEq

/-- `const int STATUS_BAD_PARAMS = 99;` from the source. -/
def STATUS_BAD_PARAMS : Nat := 99

/-- Whether `wcsncmp(a, b, n) == 0` for NUL-terminated wide strings given as
char lists: compares up to `n` characters, stopping early when either string
ends (its NUL differs from any remaining character of the other). -/
def wcsncmpZero : List Char → List Char → Nat → Bool
  | _, _, 0 => true
  | [], [], _ => true
  | [], _ :: _, _ => false
  | _ :: _, [], _ => false
  | a :: as, b :: bs, n + 1 => a == b && wcsncmpZero as bs n

/-- Whether the first list begins with the second (spec-side notion of a
case-sensitive fixed-length action match). -/
def listBegins : List Char → List Char → Bool
  | _, [] => true
  | [], _ :: _ => false
  | a :: as, b :: bs => a == b && listBegins as bs

/-- `CertFindCertificateInStore(store, ..., CERT_FIND_SUBJECT_STR, commonName,
NULL)`: the first entry of the store, in native enumeration order, whose
subject matches the given common name. -/
def certFindFirst (env : Env) (store : List Cert) (cn : String) : Option Cert :=
  store.find? (fun c => env.subjectMatch c cn)

/-- Modelled from the spec: `CertAddCertificateContextToStore` with
`CERT_STORE_ADD_REPLACE_EXISTING` (a collaborator of this program, §4.3/§3 of
the spec) uses add-or-replace semantics — an entry with the same native
identity is overwritten in place, otherwise the certificate is appended. -/
def storeAdd (store : List Cert) (c : Cert) : List Cert :=
  if store.any (fun x => x.identity == c.identity) then
    store.map (fun x => if x.identity == c.identity then c else x)
  else
    store ++ [c]

/-- Modelled from the spec: `CertDeleteCertificateFromStore(cert)` (a
collaborator) removes exactly the entry the preceding find returned, i.e. the
first entry matching the predicate; all other entries remain. -/
def removeFirst (p : Cert → Bool) : List Cert → List Cert
  | [] => []
  | c :: cs => if p c then cs else c :: removeFirst p cs

/-- `checkExists` from the source: find the certificate by subject common
name; exit 0 when found, 2 when not.  The store is only read. -/
def checkExists (env : Env) (store : List Cert) (commonName : String) : Result :=
  match certFindFirst env store commonName with
  | some _ => ⟨0, store, [.findCall]⟩
  | none => ⟨2, store, [.findCall]⟩

/-- `addCert` from the source: open and read the certificate file (exit 2 when
it cannot be opened, before any store call), parse it as a DER X.509
certificate (exit 3 on failure, store untouched), then add it to the store
with replace-existing semantics (exit 4 when the store rejects the insertion,
and the literal `return 5` of the source when the insertion succeeds). -/
def addCert (env : Env) (store : List Cert) (certFileName : String) : Result :=
  match env.readFile certFileName with
  | none => ⟨2, store, []⟩
  | some memblock =>
    match env.parseCert memblock with
    | none => ⟨3, store, []⟩
    | some cert =>
      if env.addAccepts store cert then ⟨5, storeAdd store cert, [.addCall]⟩
      else ⟨4, store, [.addCall]⟩

/-- `deleteCert` from the source: find by subject common name (exit 6 when no
entry matches), then delete the found entry (exit 5 when the native delete
call fails, 0 on success). -/
def deleteCert (env : Env) (store : List Cert) (commonName : String) : Result :=
  match certFindFirst env store commonName with
  | some cert =>
    if env.deleteOk store cert then
      ⟨0, removeFirst (fun c => env.subjectMatch c commonName) store, [.findCall, .deleteCall]⟩
    else ⟨5, store, [.findCall, .deleteCall]⟩
  | none => ⟨6, store, [.findCall]⟩

/-- The three values the function pointer `actionFn` can take. -/
inductive ActionFn where
  | find
  | add
  | delete
deriving DecidableEq

/-- The action-dispatch chain of `wWinMain`: `wcsncmp` against `"find"` (4
chars), then `"add"` (3 chars), then `"delete"` (6 chars). -/
def dispatch (action : String) : Option ActionFn :=
  if wcsncmpZero action.data "find".data 4 then some .find
  else if wcsncmpZero action.data "add".data 3 then some .add
  else if wcsncmpZero action.data "delete".data 6 then some .delete
  else none

/-- `additionalOpenFlags` from the source: `CERT_STORE_READONLY_FLAG` is set
exactly when the selected action is the find action. -/
def readOnlyFlag : ActionFn → Bool
  | .find => true
  | _ => false

/-- Run the selected action function on the opened store. -/
def runAction (env : Env) (fn : ActionFn) (store : List Cert) (actionData : String) : Result :=
  match fn with
  | .find => checkExists env store actionData
  | .add => addCert env store actionData
  | .delete => deleteCert env store actionData

/-- `wWinMain` from the source: fewer than 3 arguments exits with
`STATUS_BAD_PARAMS`; an action token matching none of the three `wcsncmp`
tests does the same, both before any store call.  Otherwise the store is
opened (read-only exactly for the find action; exit 1 when the open fails) and
the return value of the action function becomes the exit code.  No close call is
ever made. -/
def wWinMain (env : Env) (store0 : List Cert) (argv : List String) : Result :=
  match argv with
  | action :: storeName :: actionData :: _ =>
    match dispatch action with
    | none => ⟨STATUS_BAD_PARAMS, store0, []⟩
    | some fn =>
      if env.openOk storeName then
        let r := runAction env fn store0 actionData
        ⟨r.exitCode, r.store, .openCall (readOnlyFlag fn) :: r.events⟩
      else ⟨1, store0, [.openCall (readOnlyFlag fn)]⟩
  | _ => ⟨STATUS_BAD_PARAMS, store0, []⟩

/-- Number of store entries carrying a given native identity. -/
def identityCount (store : List Cert) (k : Nat) : Nat :=
  (store.filter (fun c => c.identity == k)).length

/-- A sample certificate for concrete test invocations. -/
def certExampleCA : Cert := ⟨1, "Example CA"⟩

/-- A concrete environment for witnesses: `good.der` holds bytes that parse to
`certExampleCA`, `empty.der` is readable but empty, `bad.der` holds bytes the
decoder rejects, every other path is unreadable; the store always opens and
accepts adds and deletes; subjects match by string equality. -/
def envA : Env where
  openOk := fun _ => true
  readFile := fun f =>
    if f == "good.der" then some [48, 1, 2]
    else if f == "empty.der" then some []
    else if f == "bad.der" then some [9]
    else none
  parseCert := fun bs => if bs == [48, 1, 2] then some certExampleCA else none
  subjectMatch := fun c n => c.subject == n
  addAccepts := fun _ _ => true
  deleteOk := fun _ _ => true

/-! ## Lemmas about the fixed-length `wcsncmp` action matching -/

lemma wcsncmpZero_eq_listBegins (p : List Char) : ∀ a : List Char,
    wcsncmpZero a p p.length = listBegins a p := by
  induction p with
  | nil => intro a; cases a <;> rfl
  | cons q qs ih =>
    intro a
    cases a with
    | nil => rfl
    | cons x xs => simp [wcsncmpZero, listBegins, ih]

lemma listBegins_disjoint (a : List Char) (q r : Char) (qs rs : List Char)
    (hqr : q ≠ r) (h : listBegins a (q :: qs) = true) :
    listBegins a (r :: rs) = false := by
  cases a with
  | nil => simp [listBegins] at h
  | cons x xs =>
    simp only [listBegins, Bool.and_eq_true, beq_iff_eq] at h
    obtain ⟨hx, -⟩ := h
    subst hx
    have hb : (x == r) = false := by simp [hqr]
    simp [listBegins, hb]

/-- C9: the dispatcher selects the find, add, or delete action function if and
only if the action token begins with the case-sensitive characters of
`"find"`, `"add"`, or `"delete"` respectively — `wcsncmp` over exactly 4, 3
and 6 characters is precisely a fixed-length begins-with test, so a token such
as `"finder"` also selects the find operation. -/
theorem C9_dispatch_fixed_length_match (tok : String) :
    (dispatch tok = some ActionFn.find ↔ listBegins tok.data "find".data = true) ∧
    (dispatch tok = some ActionFn.add ↔ listBegins tok.data "add".data = true) ∧
    (dispatch tok = some ActionFn.delete ↔ listBegins tok.data "delete".data = true) := by
  have hf : wcsncmpZero tok.data "find".data 4 = listBegins tok.data "find".data :=
    wcsncmpZero_eq_listBegins "find".data tok.data
  have ha : wcsncmpZero tok.data "add".data 3 = listBegins tok.data "add".data :=
    wcsncmpZero_eq_listBegins "add".data tok.data
  have hd : wcsncmpZero tok.data "delete".data 6 = listBegins tok.data "delete".data :=
    wcsncmpZero_eq_listBegins "delete".data tok.data
  have e1 : "find".data = ['f', 'i', 'n', 'd'] := rfl
  have e2 : "add".data = ['a', 'd', 'd'] := rfl
  have e3 : "delete".data = ['d', 'e', 'l', 'e', 't', 'e'] := rfl
  rw [e1] at hf
  rw [e2] at ha
  rw [e3] at hd
  unfold dispatch
  rw [e1, e2, e3]
  rw [hf, ha, hd]
  cases hF : listBegins tok.data ['f', 'i', 'n', 'd'] with
  | true =>
    have hA := listBegins_disjoint tok.data 'f' 'a' ['i', 'n', 'd'] ['d', 'd'] (by decide) hF
    have hD := listBegins_disjoint tok.data 'f' 'd' ['i', 'n', 'd'] ['e', 'l', 'e', 't', 'e']
      (by decide) hF
    simp [hA, hD]
  | false =>
    cases hA : listBegins tok.data ['a', 'd', 'd'] with
    | true =>
      have hD := listBegins_disjoint tok.data 'a' 'd' ['d', 'd'] ['e', 'l', 'e', 't', 'e']
        (by decide) hA
      simp [hF, hD]
    | false =>
      cases hD : listBegins tok.data ['d', 'e', 'l', 'e', 't', 'e'] <;> simp [hF, hA]

/-- C3: with fewer than 3 arguments, or with an action token that begins with
none of `"find"`, `"add"`, `"delete"`, the process exits with code 99 and the
event trace is empty — in particular the store-open operation is never
invoked. -/
theorem C3_bad_invocation_exits_99_without_store_open (env : Env) (store0 : List Cert)
    (argv : List String) :
    (argv.length < 3 →
      (wWinMain env store0 argv).exitCode = 99 ∧ (wWinMain env store0 argv).events = []) ∧
    (∀ a sn d rest, argv = a :: sn :: d :: rest →
      listBegins a.data "find".data = false →
      listBegins a.data "add".data = false →
      listBegins a.data "delete".data = false →
      (wWinMain env store0 argv).exitCode = 99 ∧ (wWinMain env store0 argv).events = []) := by
  constructor
  · intro h
    cases argv with
    | nil => exact ⟨rfl, rfl⟩
    | cons a t =>
      cases t with
      | nil => exact ⟨rfl, rfl⟩
      | cons b u =>
        cases u with
        | nil => exact ⟨rfl, rfl⟩
        | cons c v => simp [List.length_cons] at h; omega
  · intro a sn d rest hargv hF hA hD
    subst hargv
    have hf : wcsncmpZero a.data "find".data 4 = false :=
      (wcsncmpZero_eq_listBegins "find".data a.data).trans hF
    have ha : wcsncmpZero a.data "add".data 3 = false :=
      (wcsncmpZero_eq_listBegins "add".data a.data).trans hA
    have hd : wcsncmpZero a.data "delete".data 6 = false :=
      (wcsncmpZero_eq_listBegins "delete".data a.data).trans hD
    have hdisp : dispatch a = none := by
      unfold dispatch
      rw [hf, ha, hd]
      rfl
    simp [wWinMain, hdisp, STATUS_BAD_PARAMS]

/-- Witness for C3 at concrete invocations: one with a single argument, one
with an unrecognized action token. -/
theorem C3_witness :
    ((wWinMain envA [] ["find"]).exitCode = 99 ∧ (wWinMain envA [] ["find"]).events = []) ∧
    ((wWinMain envA [] ["frobnicate", "ROOT", "x"]).exitCode = 99 ∧
      (wWinMain envA [] ["frobnicate", "ROOT", "x"]).events = []) :=
  ⟨(C3_bad_invocation_exits_99_without_store_open envA [] ["find"]).1 (by decide),
   (C3_bad_invocation_exits_99_without_store_open envA [] ["frobnicate", "ROOT", "x"]).2
     "frobnicate" "ROOT" "x" [] rfl (by decide) (by decide) (by decide)⟩

/-! ## Store-handle lifetime -/

lemma closeCall_not_in_runAction (env : Env) (fn : ActionFn) (s : List Cert) (d : String) :
    StoreEvent.closeCall ∉ (runAction env fn s d).events := by
  cases fn with
  | find =>
    unfold runAction checkExists
    cases hfind : certFindFirst env s d <;> simp [hfind]
  | add =>
    unfold runAction addCert
    cases hread : env.readFile d with
    | none => simp [hread]
    | some bs =>
      cases hparse : env.parseCert bs with
      | none => simp [hread, hparse]
      | some c => cases hacc : env.addAccepts s c <;> simp [hread, hparse, hacc]
  | delete =>
    unfold runAction deleteCert
    cases hfind : certFindFirst env s d with
    | none => simp [hfind]
    | some c => cases hok : env.deleteOk s c <;> simp [hfind, hok]

/-- C2 counterexample: a concrete invocation in which the store opens
successfully, yet no close call ever appears in the trace of store-API calls
the program makes — `wWinMain` in the source returns `actionFn(store, ...)`
directly and never calls `CertCloseStore`. -/
theorem C2_counterexample_no_close_after_successful_open :
    envA.openOk "ROOT" = true ∧
    StoreEvent.closeCall ∉ (wWinMain envA [] ["find", "ROOT", "x"]).events := by
  refine ⟨rfl, ?_⟩
  decide

/-- C2 (amended): the program never invokes the store close operation on any
exit path; a successfully opened store handle stays open until process
termination reclaims it. -/
theorem C2_amended_close_never_called (env : Env) (store0 : List Cert) (argv : List String) :
    StoreEvent.closeCall ∉ (wWinMain env store0 argv).events := by
  cases argv with
  | nil => simp [wWinMain]
  | cons a t =>
    cases t with
    | nil => simp [wWinMain]
    | cons b u =>
      cases u with
      | nil => simp [wWinMain]
      | cons c v =>
        cases hdisp : dispatch a with
        | none => simp [wWinMain, hdisp]
        | some fn =>
          cases hopen : env.openOk b with
          | false => simp [wWinMain, hdisp, hopen]
          | true =>
            have hrun := closeCall_not_in_runAction env fn store0 c
            simp only [wWinMain, hdisp, hopen, if_true, List.mem_cons, not_or]
            exact ⟨by simp, hrun⟩

/-- C1: the claim fails on the code.  At a concrete invocation of the add
action whose certificate file is readable, parses as a DER X.509 certificate,
and is accepted by the store (the final store really does contain the
certificate), the process exits with code 5, not 0 — `addCert` ends in
`return 5`, contradicting the header comment of the program itself ("If and only if
the import was successful, this program exits with status 0"). -/
theorem C1_successful_add_exits_with_5 :
    (wWinMain envA [] ["add", "ROOT", "good.der"]).store = [certExampleCA] ∧
    (wWinMain envA [] ["add", "ROOT", "good.der"]).exitCode = 5 ∧
    (wWinMain envA [] ["add", "ROOT", "good.der"]).exitCode ≠ 0 := by
  refine ⟨?_, ?_, ?_⟩ <;> decide

/-! ## The find action -/

/-- C4: on a successfully opened store, the find action exits with code 0 when
the subject of some store entry matches the given common name and with code 2 when
none does; in both cases the store contents are unchanged and the only store
calls are the (read-only) open and the find. -/
theorem C4_find_exit_codes_and_no_mutation (env : Env) (store : List Cert) (sn cn : String)
    (rest : List String) (hopen : env.openOk sn = true) :
    ((store.any fun c => env.subjectMatch c cn) = true →
      wWinMain env store ("find" :: sn :: cn :: rest) =
        ⟨0, store, [.openCall true, .findCall]⟩) ∧
    ((store.any fun c => env.subjectMatch c cn) = false →
      wWinMain env store ("find" :: sn :: cn :: rest) =
        ⟨2, store, [.openCall true, .findCall]⟩) := by
  have hdisp : dispatch "find" = some ActionFn.find := by decide
  constructor
  · intro hmatch
    obtain ⟨c, hc, hpc⟩ := List.any_eq_true.mp hmatch
    have hsome : (certFindFirst env store cn).isSome := by
      unfold certFindFirst
      exact List.find?_isSome.mpr ⟨c, hc, hpc⟩
    obtain ⟨u, hu⟩ := Option.isSome_iff_exists.mp hsome
    simp [wWinMain, hdisp, hopen, runAction, checkExists, hu, readOnlyFlag]
  · intro hnone
    have hfind : certFindFirst env store cn = none := by
      unfold certFindFirst
      exact List.find?_eq_none.mpr (by simpa using List.any_eq_false.mp hnone)
    simp [wWinMain, hdisp, hopen, runAction, checkExists, hfind, readOnlyFlag]

/-- Witness for C4: a store containing "Example CA" is found with exit 0, and
a search for an absent name exits 2, both leaving the store unchanged. -/
theorem C4_witness :
    wWinMain envA [certExampleCA] ["find", "ROOT", "Example CA"] =
      ⟨0, [certExampleCA], [.openCall true, .findCall]⟩ ∧
    wWinMain envA [certExampleCA] ["find", "ROOT", "Nope"] =
      ⟨2, [certExampleCA], [.openCall true, .findCall]⟩ :=
  ⟨(C4_find_exit_codes_and_no_mutation envA [certExampleCA] "ROOT" "Example CA" [] rfl).1
      (by decide),
   (C4_find_exit_codes_and_no_mutation envA [certExampleCA] "ROOT" "Nope" [] rfl).2
      (by decide)⟩

/-! ## The add action: error paths -/

/-- C6: when the certificate file cannot be opened, the add action exits with
code 2, the store is unchanged, and the only store call in the trace is the
open — the failure happens before any store operation. -/
theorem C6_add_unreadable_file_exits_2_without_store_call (env : Env) (store : List Cert)
    (sn f : String) (rest : List String) (hopen : env.openOk sn = true)
    (hread : env.readFile f = none) :
    wWinMain env store ("add" :: sn :: f :: rest) = ⟨2, store, [.openCall false]⟩ := by
  have hdisp : dispatch "add" = some ActionFn.add := by decide
  simp [wWinMain, hdisp, hopen, runAction, addCert, hread, readOnlyFlag]

/-- Witness for C6 at a concrete unreadable path. -/
theorem C6_witness :
    wWinMain envA [certExampleCA] ["add", "ROOT", "missing.der"] =
      ⟨2, [certExampleCA], [.openCall false]⟩ :=
  C6_add_unreadable_file_exits_2_without_store_call envA [certExampleCA] "ROOT" "missing.der" []
    rfl (by decide)

lemma add_parse_fail (env : Env) (store : List Cert)
    (sn f : String) (rest : List String) (bs : List Nat) (hopen : env.openOk sn = true)
    (hread : env.readFile f = some bs) (hparse : env.parseCert bs = none) :
    wWinMain env store ("add" :: sn :: f :: rest) = ⟨3, store, [.openCall false]⟩ := by
  have hdisp : dispatch "add" = some ActionFn.add := by decide
  simp [wWinMain, hdisp, hopen, runAction, addCert, hread, hparse, readOnlyFlag]

/-- C7: when the certificate file is readable but its bytes do not parse as a
DER-encoded X.509 certificate, the add action exits with code 3, the store is
unchanged, and no store call beyond the open appears in the trace. -/
theorem C7_add_malformed_cert_exits_3_without_store_call (env : Env) (store : List Cert)
    (sn f : String) (rest : List String) (bs : List Nat) (hopen : env.openOk sn = true)
    (hread : env.readFile f = some bs) (hparse : env.parseCert bs = none) :
    wWinMain env store ("add" :: sn :: f :: rest) = ⟨3, store, [.openCall false]⟩ :=
  add_parse_fail env store sn f rest bs hopen hread hparse

/-- Witness for C7 at a concrete file of undecodable bytes. -/
theorem C7_witness :
    wWinMain envA [certExampleCA] ["add", "ROOT", "bad.der"] =
      ⟨3, [certExampleCA], [.openCall false]⟩ :=
  C7_add_malformed_cert_exits_3_without_store_call envA [certExampleCA] "ROOT" "bad.der" [] [9]
    rfl (by decide) (by decide)

/-- C10: when the certificate file is readable but empty, the add action
reaches the parse step with a zero-byte blob; since no valid DER certificate
encoding is empty, the decoder rejects it and the process exits with code 3 —
not 2 — with the store unchanged. -/
theorem C10_add_empty_file_exits_3 (env : Env) (store : List Cert)
    (sn f : String) (rest : List String) (hopen : env.openOk sn = true)
    (hread : env.readFile f = some []) (hparse : env.parseCert [] = none) :
    (wWinMain env store ("add" :: sn :: f :: rest)).exitCode = 3 ∧
    (wWinMain env store ("add" :: sn :: f :: rest)).exitCode ≠ 2 ∧
    (wWinMain env store ("add" :: sn :: f :: rest)).store = store := by
  have h := add_parse_fail env store sn f rest [] hopen hread hparse
  rw [h]
  exact ⟨rfl, by norm_num, rfl⟩

/-- Witness for C10 at a concrete empty file. -/
theorem C10_witness :
    (wWinMain envA [certExampleCA] ["add", "ROOT", "empty.der"]).exitCode = 3 ∧
    (wWinMain envA [certExampleCA] ["add", "ROOT", "empty.der"]).exitCode ≠ 2 ∧
    (wWinMain envA [certExampleCA] ["add", "ROOT", "empty.der"]).store = [certExampleCA] :=
  C10_add_empty_file_exits_3 envA [certExampleCA] "ROOT" "empty.der" [] rfl (by decide)
    (by decide)

/-! ## Add-or-replace semantics: idempotence -/

lemma replace_any (c : Cert) (s : List Cert) (h : ∃ x ∈ s, x.identity = c.identity) :
    ((s.map fun x => if x.identity == c.identity then c else x).any
        fun x => x.identity == c.identity) = true := by
  rcases h with ⟨x, hx, hid⟩
  apply List.any_eq_true.mpr
  refine ⟨if x.identity == c.identity then c else x, List.mem_map_of_mem _ hx, ?_⟩
  simp [hid]

lemma any_id_eq_true (c : Cert) (s : List Cert) (h : ∃ x ∈ s, x.identity = c.identity) :
    (s.any fun x => x.identity == c.identity) = true := by
  rcases h with ⟨x, hx, hid⟩
  exact List.any_eq_true.mpr ⟨x, hx, by simp [hid]⟩

lemma any_id_ne_true (c : Cert) (s : List Cert) (h : ¬∃ x ∈ s, x.identity = c.identity) :
    ¬(s.any fun x => x.identity == c.identity) = true := by
  intro hb
  obtain ⟨x, hx, hid⟩ := List.any_eq_true.mp hb
  exact h ⟨x, hx, by simpa using hid⟩

lemma replace_map_id (c : Cert) (s : List Cert)
    (h : ∀ x ∈ s, x.identity ≠ c.identity) :
    (s.map fun x => if x.identity == c.identity then c else x) = s := by
  have hmap : (s.map fun x => if x.identity == c.identity then c else x) = s.map id := by
    apply List.map_congr_left
    intro a ha
    simp [h a ha]
  simpa using hmap

lemma replace_idem (c : Cert) (s : List Cert) :
    ((s.map fun x => if x.identity == c.identity then c else x).map
        fun x => if x.identity == c.identity then c else x)
      = s.map fun x => if x.identity == c.identity then c else x := by
  rw [List.map_map]
  apply List.map_congr_left
  intro a _
  by_cases hx : a.identity = c.identity <;> simp [hx, Function.comp]

lemma storeAdd_idem (s : List Cert) (c : Cert) : storeAdd (storeAdd s c) c = storeAdd s c := by
  by_cases hany : ∃ x ∈ s, x.identity = c.identity
  · have hb := any_id_eq_true c s hany
    have h1 : storeAdd s c = s.map fun x => if x.identity == c.identity then c else x := by
      unfold storeAdd
      rw [if_pos hb]
    rw [h1]
    unfold storeAdd
    rw [if_pos (replace_any c s hany)]
    exact replace_idem c s
  · have hid : ∀ x ∈ s, x.identity ≠ c.identity := fun x hx hh => hany ⟨x, hx, hh⟩
    have h1 : storeAdd s c = s ++ [c] := by
      unfold storeAdd
      rw [if_neg (any_id_ne_true c s hany)]
    have h2 : ((s ++ [c]).any fun x => x.identity == c.identity) = true :=
      any_id_eq_true c (s ++ [c]) ⟨c, by simp, rfl⟩
    rw [h1]
    unfold storeAdd
    rw [if_pos h2, List.map_append, replace_map_id c s hid]
    simp

lemma identityCount_eq_zero (s : List Cert) (k : Nat)
    (h : ∀ x ∈ s, x.identity ≠ k) : identityCount s k = 0 := by
  induction s with
  | nil => rfl
  | cons x xs ih =>
    have hx := h x (by simp)
    have ihx := ih (fun y hy => h y (by simp [hy]))
    simpa [identityCount, List.filter_cons, hx] using ihx

lemma identityCount_pos (s : List Cert) (k : Nat)
    (h : ∃ x ∈ s, x.identity = k) : 1 ≤ identityCount s k := by
  rcases h with ⟨x, hx, hid⟩
  have hmem : x ∈ s.filter (fun c => c.identity == k) :=
    List.mem_filter.mpr ⟨hx, by simp [hid]⟩
  exact List.length_pos.mpr (List.ne_nil_of_mem hmem)

lemma identityCount_replace (c : Cert) (s : List Cert) :
    identityCount (s.map fun x => if x.identity == c.identity then c else x) c.identity
      = identityCount s c.identity := by
  unfold identityCount
  rw [List.filter_map, List.length_map]
  congr 1
  apply List.filter_congr
  intro a _
  by_cases hx : a.identity = c.identity <;> simp [hx, Function.comp]

lemma identityCount_storeAdd (s : List Cert) (c : Cert)
    (hwf : identityCount s c.identity ≤ 1) :
    identityCount (storeAdd s c) c.identity = 1 := by
  by_cases hany : ∃ x ∈ s, x.identity = c.identity
  · have hone : identityCount s c.identity = 1 :=
      le_antisymm hwf (identityCount_pos s c.identity hany)
    unfold storeAdd
    rw [if_pos (any_id_eq_true c s hany), identityCount_replace, hone]
  · have hz := identityCount_eq_zero s c.identity
      (fun x hx hh => hany ⟨x, hx, hh⟩)
    unfold storeAdd
    rw [if_neg (any_id_ne_true c s hany)]
    simp only [identityCount] at hz ⊢
    simp [List.filter_append, hz, List.filter_cons]

/-- C5: add is idempotent on the store state.  When the file reads and parses
to a certificate the store accepts, and the store satisfies the native
invariant of holding at most one entry per identity, a first add leaves
exactly one entry with the identity of that certificate, and a second add of the
same file leaves the store exactly as the first did (replace, not
duplicate). -/
theorem C5_add_twice_is_add_once (env : Env) (store : List Cert) (f : String)
    (bs : List Nat) (c : Cert)
    (hread : env.readFile f = some bs) (hparse : env.parseCert bs = some c)
    (hacc1 : env.addAccepts store c = true)
    (hacc2 : env.addAccepts (storeAdd store c) c = true)
    (hwf : identityCount store c.identity ≤ 1) :
    (addCert env (addCert env store f).store f).store = (addCert env store f).store ∧
    identityCount (addCert env store f).store c.identity = 1 := by
  have h1 : (addCert env store f).store = storeAdd store c := by
    simp [addCert, hread, hparse, hacc1]
  have h2 : (addCert env (storeAdd store c) f).store = storeAdd (storeAdd store c) c := by
    simp [addCert, hread, hparse, hacc2]
  rw [h1, h2]
  exact ⟨storeAdd_idem store c, identityCount_storeAdd store c hwf⟩

/-- Witness for C5: adding `good.der` twice to an empty store leaves the
single entry the first add produced. -/
theorem C5_witness :
    (addCert envA (addCert envA [] "good.der").store "good.der").store
        = (addCert envA [] "good.der").store ∧
    identityCount (addCert envA [] "good.der").store certExampleCA.identity = 1 :=
  C5_add_twice_is_add_once envA [] "good.der" [48, 1, 2] certExampleCA (by decide) (by decide)
    (by decide) (by decide) (by decide)

/-! ## The delete action -/

lemma find_first_decomp (p : Cert → Bool) (pre : List Cert) (c : Cert) (post : List Cert)
    (hpre : ∀ x ∈ pre, p x = false) (hc : p c = true) :
    (pre ++ c :: post).find? p = some c := by
  induction pre with
  | nil => simpa [List.find?_cons] using List.find?_cons_of_pos post hc
  | cons x xs ih =>
    have hx := hpre x (by simp)
    rw [List.cons_append, List.find?_cons_of_neg _ (by simp [hx])]
    exact ih (fun y hy => hpre y (by simp [hy]))

lemma removeFirst_decomp (p : Cert → Bool) (pre : List Cert) (c : Cert) (post : List Cert)
    (hpre : ∀ x ∈ pre, p x = false) (hc : p c = true) :
    removeFirst p (pre ++ c :: post) = pre ++ post := by
  induction pre with
  | nil => simp [removeFirst, hc]
  | cons x xs ih =>
    have hx := hpre x (by simp)
    rw [List.cons_append, removeFirst, if_neg (by simp [hx]), List.cons_append]
    rw [ih (fun y hy => hpre y (by simp [hy]))]

/-- C8: on a successfully opened store, when the subject of no entry matches the
given common name the delete action exits with a code in {2, 6} (concretely 6)
and leaves the store unchanged; when the store splits as `pre ++ c :: post`
with no match in `pre` and `c` matching, and the native delete call succeeds,
exactly that first matching entry is removed — every other entry, including
later ones sharing the subject, remains. -/
theorem C8_delete_first_match_only (env : Env) (store : List Cert) (sn cn : String)
    (rest : List String) (hopen : env.openOk sn = true) :
    ((∀ x ∈ store, env.subjectMatch x cn = false) →
      ((wWinMain env store ("delete" :: sn :: cn :: rest)).exitCode = 2 ∨
        (wWinMain env store ("delete" :: sn :: cn :: rest)).exitCode = 6) ∧
      (wWinMain env store ("delete" :: sn :: cn :: rest)).store = store) ∧
    (∀ pre c post, store = pre ++ c :: post →
      (∀ x ∈ pre, env.subjectMatch x cn = false) →
      env.subjectMatch c cn = true →
      env.deleteOk store c = true →
      wWinMain env store ("delete" :: sn :: cn :: rest) =
        ⟨0, pre ++ post, [.openCall false, .findCall, .deleteCall]⟩) := by
  have hdisp : dispatch "delete" = some ActionFn.delete := by decide
  constructor
  · intro hnone
    have hfind : certFindFirst env store cn = none := by
      unfold certFindFirst
      exact List.find?_eq_none.mpr (fun x hx => by simp [hnone x hx])
    have hres : wWinMain env store ("delete" :: sn :: cn :: rest) =
        ⟨6, store, [.openCall false, .findCall]⟩ := by
      simp [wWinMain, hdisp, hopen, runAction, deleteCert, hfind, readOnlyFlag]
    rw [hres]
    exact ⟨Or.inr rfl, rfl⟩
  · intro pre c post hdecomp hpre hc hok
    have hfind : certFindFirst env store cn = some c := by
      unfold certFindFirst
      rw [hdecomp]
      exact find_first_decomp _ pre c post hpre hc
    have hrm : removeFirst (fun x => env.subjectMatch x cn) store = pre ++ post := by
      rw [hdecomp]
      exact removeFirst_decomp _ pre c post hpre hc
    simp [wWinMain, hdisp, hopen, runAction, deleteCert, hfind, hok, hrm, readOnlyFlag]

/-- Witness for C8: deleting an absent name from a one-entry store exits 6
and leaves it unchanged; deleting "Example CA" from a three-entry store
holding two certificates with that subject removes only the first of them. -/
theorem C8_witness :
    (((wWinMain envA [certExampleCA] ["delete", "ROOT", "Nope"]).exitCode = 2 ∨
        (wWinMain envA [certExampleCA] ["delete", "ROOT", "Nope"]).exitCode = 6) ∧
      (wWinMain envA [certExampleCA] ["delete", "ROOT", "Nope"]).store = [certExampleCA]) ∧
    wWinMain envA [⟨5, "Other"⟩, certExampleCA, ⟨2, "Example CA"⟩]
        ["delete", "ROOT", "Example CA"] =
      ⟨0, [⟨5, "Other"⟩, ⟨2, "Example CA"⟩], [.openCall false, .findCall, .deleteCall]⟩ :=
  ⟨(C8_delete_first_match_only envA [certExampleCA] "ROOT" "Nope" [] rfl).1 (by decide),
   (C8_delete_first_match_only envA [⟨5, "Other"⟩, certExampleCA, ⟨2, "Example CA"⟩]
       "ROOT" "Example CA" [] rfl).2 [⟨5, "Other"⟩] certExampleCA [⟨2, "Example CA"⟩] rfl
     (by decide) (by decide) rfl⟩

end CertImporter
